import Mathlib

set_option autoImplicit false

/-!
Shallow embedding of the interposition routing element
(`interposeServer` in pkg/networkservice/common/interpose) and the
endpoint pipeline assembly (`endpoint.NewServer` in
pkg/networkservice/chains/endpoint/server.go) of the networkservicemesh
sdk, together with proofs about the behaviour its specification claims.

Modelling conventions:
- Go `*url.URL` values are modelled as opaque identities (`URL := String`);
  the pointer comparison `clientURL != connInfo.endpointURL` in the source
  is modelled as inequality of these identities, and `url.Parse` (whose
  error the source discards) as the identity function on them.
- `sync.Map` values are modelled as association lists in iteration order;
  `Load` returns the first matching entry, `LoadOrStore` appends only when
  the key is absent, `Delete` removes all entries of the key, and the
  in-place write `connInfo.closingNSE = true` through the loaded pointer is
  modelled by `syncUpdate`.
- A Go runtime panic (the unguarded index `GetPathSegments()[i]` running
  out of range) is modelled as the `none` result of an `Option`-valued
  function.
- The rest of the chain (`next.Server(ctx)`) is a parameter: a function
  from the client URL carried by the per-call context (the only part of
  the context this element reads or writes, via `clienturl.WithClientURL`)
  and the request to an `Except` result, which enforces the Go convention
  that a delegate returns either a non-nil connection or a non-nil error.
-/

namespace NSM

/-- Opaque identity of a Go `*url.URL` value. -/
abbrev URL := String

/-- One segment of a `Connection`'s path: a component identity name and a
per-segment connection id. -/
structure PathSegment where
  name : String
  id : String
  deriving DecidableEq

/-- A `networkservice.Path`: the ordered segments and the current index
(`uint32` in the source, hence never negative; modelled as `Nat`). -/
structure Path where
  index : Nat
  pathSegments : List PathSegment
  deriving DecidableEq

/-- A `networkservice.Connection`: its id and its path. -/
structure Connection where
  id : String
  path : Path
  deriving DecidableEq

/-- A `networkservice.NetworkServiceRequest`; only the connection is read
by the interpose element. -/
structure NetworkServiceRequest where
  connection : Connection
  deriving DecidableEq

/-- A `registry.NetworkServiceEndpoint`; only its `Url` field is read. -/
structure NetworkServiceEndpoint where
  Url : String
  deriving DecidableEq

/-- The distinct error returns of the interpose element, one per
`errors.Errorf` site in the source, plus errors produced by the rest of
the chain. -/
inductive Err where
  /-- "path segment doesn't have a client or cross connect nse identity" -/
  | malformedPath
  /-- "connection id should match current path segment id" -/
  | idMismatch
  /-- "all cross NSE failed to connect to endpoint" -/
  | allCrossNSEFailed
  /-- "new selected endpoint URL doesn't match endpoint URL selected before" -/
  | endpointURLMismatch
  /-- "no active connection found but we called from cross NSE" -/
  | noActiveConnection
  /-- An error coming back from the rest of the chain. -/
  | nextErr (msg : String)
  deriving DecidableEq

instance {ε α : Type} [DecidableEq ε] [DecidableEq α] : DecidableEq (Except ε α) := fun a b =>
  match a, b with
  | Except.ok x, Except.ok y =>
    if h : x = y then isTrue (by rw [h]) else isFalse (by intro hh; cases hh; exact h rfl)
  | Except.ok _, Except.error _ => isFalse (by intro hh; cases hh)
  | Except.error _, Except.ok _ => isFalse (by intro hh; cases hh)
  | Except.error x, Except.error y =>
    if h : x = y then isTrue (by rw [h]) else isFalse (by intro hh; cases hh; exact h rfl)

/-- The Go `connectionInfo` record: the recorded upstream (client-facing)
endpoint URL, the chosen cross-connect NSE URL, and the closing-phase
flag. -/
structure connectionInfo where
  endpointURL : URL
  interposeNSEURL : URL
  closingNSE : Bool
  deriving DecidableEq

/-- `sync.Map.Load`: first entry of the key, in iteration order. -/
def syncLoad {α : Type} : List (String × α) → String → Option α
  | [], _ => none
  | (k, v) :: rest, key => if k = key then some v else syncLoad rest key

/-- `sync.Map.LoadOrStore`: returns `(actual, loaded)` and the map, which
gains the binding only when the key was absent. -/
def syncLoadOrStore {α : Type} (m : List (String × α)) (key : String) (v : α) :
    (α × Bool) × List (String × α) :=
  match syncLoad m key with
  | some actual => ((actual, true), m)
  | none => ((v, false), m ++ [(key, v)])

/-- `sync.Map.Delete`: removes the key's entries. -/
def syncDelete {α : Type} (m : List (String × α)) (key : String) : List (String × α) :=
  m.filter (fun p => p.1 ≠ key)

/-- Mutation through the pointer obtained from `Load`: rewrites the values
stored at the key. -/
def syncUpdate {α : Type} : List (String × α) → String → (α → α) → List (String × α)
  | [], _, _ => []
  | p :: rest, key, f => (p.1, if p.1 = key then f p.2 else p.2) :: syncUpdate rest key f

/-- The mutable state of an `interposeServer`: the cross-connect endpoint
registry (name to endpoint, in iteration order), the active-connection
table, and this element's own identity name. -/
structure interposeServer where
  endpoints : List (String × NetworkServiceEndpoint)
  activeConnection : List (String × connectionInfo)
  name : String
  deriving DecidableEq

/-- The rest of the chain for Request, as a function of the client URL in
the per-call context. -/
abbrev NextServer := URL → NetworkServiceRequest → Except Err Connection

/-- The rest of the chain for Close. -/
abbrev NextCloser := URL → Connection → Except Err Unit

/-- The loop body of `getConnectionID`: `for i := ind; i > 0; i--`, reading
`segs[i]` (a panic, i.e. `none`, when out of range) and overwriting the
accumulator whenever the segment's name equals the element's name, so the
lowest visited match wins. -/
def getConnIDLoop (name : String) (segs : List PathSegment) : Nat → String → Option String
  | 0, acc => some acc
  | n + 1, acc =>
    match segs.get? (n + 1) with
    | none => none
    | some seg => getConnIDLoop name segs n (if seg.name = name then seg.id else acc)

/-- `interposeServer.getConnectionID`: scan the path from the current index
down to 1 for the lowest-indexed segment named like this element. -/
def interposeServer.getConnectionID (l : interposeServer) (conn : Connection) : Option String :=
  getConnIDLoop l.name conn.path.pathSegments conn.path.index ""

/-- The `l.endpoints.Range` loop body of `Request`: for each registry entry
in iteration order, insert-if-absent an active-connection record keyed by
`conn.Id` holding the upstream URL and this candidate's URL, delegate with
the context retargeted at the candidate, stop on the first success and
continue (swallowing the error) on failure. Returns the first successful
result, if any, and the table as mutated. -/
def requestRangeLoop (next : NextServer) (request : NetworkServiceRequest)
    (clientURL : URL) (connId : String) :
    List (String × NetworkServiceEndpoint) → List (String × connectionInfo) →
    Option Connection × List (String × connectionInfo)
  | [], ac => (none, ac)
  | (_, value) :: rest, ac =>
    let crossNSEURL := value.Url
    let ac1 := (syncLoadOrStore ac connId ⟨clientURL, crossNSEURL, false⟩).2
    match next crossNSEURL request with
    | Except.error _ => requestRangeLoop next request clientURL connId rest ac1
    | Except.ok c => (some c, ac1)

/-- `interposeServer.Request`. `clientURL` is `clienturl.ClientURL(ctx)`.
The result is `none` when the source panics (out-of-range path index),
otherwise the returned `(Connection, error)` pair and the server state
after the call. -/
def interposeServer.Request (l : interposeServer) (next : NextServer)
    (clientURL : URL) (request : NetworkServiceRequest) :
    Option (Except Err Connection × interposeServer) :=
  let conn := request.connection
  let ind := conn.path.index
  let connID := conn.id
  if conn.path.pathSegments.length = 0 ∨ ind = 0 then
    some (Except.error Err.malformedPath, l)
  else
    match l.getConnectionID conn with
    | none => none
    | some clientConnID =>
      match syncLoad l.activeConnection clientConnID with
      | none =>
        if connID ≠ clientConnID then
          some (Except.error Err.idMismatch, l)
        else
          match requestRangeLoop next request clientURL conn.id l.endpoints l.activeConnection with
          | (some result, ac1) => some (Except.ok result, { l with activeConnection := ac1 })
          | (none, ac1) => some (Except.error Err.allCrossNSEFailed, { l with activeConnection := ac1 })
      | some connInfo =>
        if clientURL ≠ connInfo.endpointURL then
          some (Except.error Err.endpointURLMismatch, l)
        else
          some (next connInfo.endpointURL request, l)

/-- `interposeServer.Close`: derive the connection id (unguarded, so the
index read may panic), look up the active connection, and run the
two-phase close; the first phase sets the closing flag through the loaded
pointer before delegating at the cross-connect URL, the second delegates
at the recorded endpoint URL. -/
def interposeServer.Close (l : interposeServer) (next : NextCloser) (conn : Connection) :
    Option (Except Err Unit × interposeServer) :=
  match l.getConnectionID conn with
  | none => none
  | some id =>
    match syncLoad l.activeConnection id with
    | none => some (Except.error Err.noActiveConnection, l)
    | some connInfo =>
      if connInfo.closingNSE = false then
        let l1 : interposeServer :=
          { l with activeConnection :=
              syncUpdate l.activeConnection id (fun ci => { ci with closingNSE := true }) }
        some (next connInfo.interposeNSEURL conn, l1)
      else
        some (next connInfo.endpointURL conn, l)

/-- `interposeServer.LoadOrStore`: the registration surface; stores into
the endpoint registry and returns the existing descriptor with `true`, or
`(none, false)` when freshly stored. -/
def interposeServer.LoadOrStore (l : interposeServer) (name : String)
    (endpoint : NetworkServiceEndpoint) :
    (Option NetworkServiceEndpoint × Bool) × interposeServer :=
  let r := syncLoadOrStore l.endpoints name endpoint
  if r.1.2 then
    ((some r.1.1, true), { l with endpoints := r.2 })
  else
    ((none, false), { l with endpoints := r.2 })

/-- `interposeServer.Delete`: removes a name from the endpoint registry. -/
def interposeServer.Delete (l : interposeServer) (name : String) : interposeServer :=
  { l with endpoints := syncDelete l.endpoints name }

/-- A tag for each chain element assembled by `endpoint.NewServer`
(server.go lines 60 to 67); the infrastructure elements themselves live
outside this repository's core and are identified here by name, and
caller-supplied additional functionality by position. -/
inductive ElementTag where
  | authorize
  | setid
  | monitor
  | timeout
  | updatepath
  | custom (n : Nat)
  deriving DecidableEq

/-- Modelled from the spec: a `networkservice.NetworkServiceServer`'s
Request operation, instrumented so that the per-call context also carries
the list of elements traversed so far (the context is append-only and
derived per call, per the Chain Engine contract). The Chain Engine itself
(core/chain and core/next) is not under src/. -/
def NSServerFun := List ElementTag → NetworkServiceRequest → List ElementTag × Except Err Connection

/-- Modelled from the spec: a chain element is a server parameterized by
the rest of the chain ("next"). -/
def ChainElemFun := NSServerFun → NSServerFun

/-- Modelled from the spec: the terminal element returns its input
connection unchanged with no error. -/
def terminalServer : NSServerFun :=
  fun trace request => (trace, Except.ok request.connection)

/-- Modelled from the spec: `chain.NewNetworkServiceServer` invokes element
0 with its "next" reference resolving to the chain built from the
remaining elements, the last element's next being the terminal element. -/
def chainNewNetworkServiceServer : List ChainElemFun → NSServerFun
  | [] => terminalServer
  | e :: rest => e (chainNewNetworkServiceServer rest)

/-- A pass-through element that records its tag in the per-call context
and delegates; used to observe the traversal order of an establish call. -/
def visitingElement (t : ElementTag) : ChainElemFun :=
  fun next => fun trace request => next (trace ++ [t]) request

/-- The element list assembled by `endpoint.NewServer` (server.go lines
61 to 67): the fixed infrastructure prefix followed by the caller-supplied
additional functionality in the order given. -/
def endpointServerElements (additionalFunctionality : List ElementTag) : List ElementTag :=
  [ElementTag.authorize, ElementTag.setid, ElementTag.monitor,
    ElementTag.timeout, ElementTag.updatepath] ++ additionalFunctionality

/-- `endpoint.NewServer` (server.go lines 55 to 69): composes the chain
over a given realization of each element. -/
def endpointNewServer (impl : ElementTag → ChainElemFun)
    (additionalFunctionality : List ElementTag) : NSServerFun :=
  chainNewNetworkServiceServer ((endpointServerElements additionalFunctionality).map impl)

/-- One externally invokable operation on an `interposeServer`, carrying
its arguments; used to state invariants over arbitrary operation
sequences. -/
inductive Operation where
  | request (next : NextServer) (clientURL : URL) (req : NetworkServiceRequest)
  | close (next : NextCloser) (conn : Connection)
  | loadOrStore (name : String) (endpoint : NetworkServiceEndpoint)
  | delete (name : String)

/-- The state reached after an operation; a call that panics mutates
nothing (the panic in `getConnectionID` happens before any store). -/
def applyOperation (op : Operation) (l : interposeServer) : interposeServer :=
  match op with
  | Operation.request next clientURL req =>
    match l.Request next clientURL req with
    | none => l
    | some (_, l1) => l1
  | Operation.close next conn =>
    match l.Close next conn with
    | none => l
    | some (_, l1) => l1
  | Operation.loadOrStore name endpoint => (l.LoadOrStore name endpoint).2
  | Operation.delete name => l.Delete name

/-- A connection whose path passes the Request guard and whose derived id
for an element named "me" is "c" (the segment at index 1). -/
def connC : Connection := ⟨"c", ⟨1, [⟨"client", "z"⟩, ⟨"me", "c"⟩]⟩⟩

/-- The request carrying `connC`. -/
def reqC : NetworkServiceRequest := ⟨connC⟩

def c1server : interposeServer := ⟨[("e1", ⟨"X"⟩)], [("c", ⟨"U", "X", false⟩)], "me"⟩

def c1base : interposeServer := ⟨[], [("c", ⟨"U", "X", false⟩)], "me"⟩

/-- A delegate that reports which URL the per-call context targeted. -/
def c1next : NextServer := fun u _ =>
  if u = "X" then Except.ok ⟨"viaCross", ⟨1, []⟩⟩ else Except.ok ⟨"viaEndpoint", ⟨1, []⟩⟩

def c2server : interposeServer := ⟨[("e1", ⟨"u1"⟩), ("e2", ⟨"u2"⟩)], [], "me"⟩

/-- A delegate that rejects the first candidate "u1" and accepts "u2". -/
def c2next : NextServer := fun u r =>
  if u = "u2" then Except.ok r.connection else Except.error (Err.nextErr "refused")

def c3server : interposeServer := ⟨[("e1", ⟨"u1"⟩)], [], "me"⟩

/-- A delegate that rejects every candidate. -/
def c3next : NextServer := fun _ _ => Except.error (Err.nextErr "refused")

/-- The state `c3server` reaches after the all-candidates-fail establish. -/
def c3server2 : interposeServer := ⟨[("e1", ⟨"u1"⟩)], [("c", ⟨"U", "u1", false⟩)], "me"⟩

/-- A delegate that accepts only when targeted at the upstream URL "U". -/
def c3next2 : NextServer := fun u r =>
  if u = "U" then Except.ok r.connection else Except.error (Err.nextErr "refused")

/-- A path in which the element identity "me" appears at indices 2 and 4. -/
def c4segs : List PathSegment :=
  [⟨"client", "i0"⟩, ⟨"a", "i1"⟩, ⟨"me", "i2"⟩, ⟨"b", "i3"⟩, ⟨"me", "i4"⟩, ⟨"e", "i5"⟩]

def c4conn : Connection := ⟨"i2", ⟨5, c4segs⟩⟩

def c4server : interposeServer := ⟨[], [], "me"⟩

def c5server : interposeServer := ⟨[], [("c", ⟨"U", "X", false⟩)], "me"⟩

def c5serverClosed : interposeServer := ⟨[], [("c", ⟨"U", "X", true⟩)], "me"⟩

def c5next1 : NextCloser := fun u _ =>
  if u = "X" then Except.ok () else Except.error (Err.nextErr "wrong")

def c5next2 : NextCloser := fun u _ =>
  if u = "U" then Except.ok () else Except.error (Err.nextErr "wrong")

def c6server : interposeServer := ⟨[], [("c", ⟨"U", "X", false⟩)], "me"⟩

def c6next : NextServer := fun _ r => Except.ok r.connection

def c7server : interposeServer := ⟨[("e1", ⟨"u1"⟩)], [], "me"⟩

def c7next : NextServer := fun _ _ => Except.error (Err.nextErr "never")

def c7conn : Connection := ⟨"c", ⟨0, []⟩⟩

def c9server : interposeServer := ⟨[], [], "me"⟩

def c9next : NextCloser := fun _ _ => Except.ok ()

/-- Index 0 with an empty segment list: index ≥ segment count, yet the
derivation loop performs no access at all. -/
def c9connA : Connection := ⟨"c", ⟨0, []⟩⟩

/-- Index 1 with an empty segment list: a genuine out-of-range access. -/
def c9connB : Connection := ⟨"c", ⟨1, []⟩⟩

def c10server : interposeServer := ⟨[("e1", ⟨"X"⟩)], [("c", ⟨"U", "X", true⟩)], "me"⟩

def c10next : NextCloser := fun _ _ => Except.ok ()

def c10nextS : NextServer := fun _ r => Except.ok r.connection

theorem syncLoad_append_of_some {α : Type} {m : List (String × α)} {k : String} {v : α}
    (m2 : List (String × α)) (h : syncLoad m k = some v) :
    syncLoad (m ++ m2) k = some v := by
  induction m with
  | nil => simp [syncLoad] at h
  | cons p rest ih =>
    obtain ⟨k1, v1⟩ := p
    by_cases hk : k1 = k
    · simpa [syncLoad, hk] using h
    · simp only [syncLoad, List.cons_append, if_neg hk] at h ⊢
      exact ih h

theorem syncLoad_append_self {α : Type} {m : List (String × α)} {k : String} (v : α)
    (h : syncLoad m k = none) :
    syncLoad (m ++ [(k, v)]) k = some v := by
  induction m with
  | nil => simp [syncLoad]
  | cons p rest ih =>
    obtain ⟨k1, v1⟩ := p
    by_cases hk : k1 = k
    · simp [syncLoad, hk] at h
    · simp only [syncLoad, List.cons_append, if_neg hk] at h ⊢
      exact ih h

theorem syncLoadOrStore_snd_of_some {α : Type} {m : List (String × α)} {k : String} {v : α}
    (w : α) (h : syncLoad m k = some v) : (syncLoadOrStore m k w).2 = m := by
  simp [syncLoadOrStore, h]

theorem syncLoadOrStore_snd_of_none {α : Type} {m : List (String × α)} {k : String}
    (w : α) (h : syncLoad m k = none) : (syncLoadOrStore m k w).2 = m ++ [(k, w)] := by
  simp [syncLoadOrStore, h]

theorem syncLoad_loadOrStore {α : Type} {m : List (String × α)} {k1 : String} {v : α}
    (k : String) (w : α) (h : syncLoad m k1 = some v) :
    syncLoad (syncLoadOrStore m k w).2 k1 = some v := by
  cases hm : syncLoad m k with
  | some a => rw [syncLoadOrStore_snd_of_some w hm]; exact h
  | none => rw [syncLoadOrStore_snd_of_none w hm]; exact syncLoad_append_of_some _ h

theorem syncLoad_syncUpdate {α : Type} (m : List (String × α)) (k k1 : String) (f : α → α) :
    syncLoad (syncUpdate m k f) k1 =
      if k1 = k then (syncLoad m k1).map f else syncLoad m k1 := by
  induction m with
  | nil => simp [syncLoad, syncUpdate]
  | cons p rest ih =>
    obtain ⟨k2, v2⟩ := p
    by_cases h1 : k2 = k
    · subst h1
      by_cases h2 : k1 = k2
      · subst h2
        simp [syncLoad, syncUpdate]
      · have h2s : ¬ k2 = k1 := fun hh => h2 hh.symm
        simp [syncLoad, syncUpdate, h2, h2s, ih]
    · by_cases h2 : k2 = k1
      · subst h2
        simp [syncLoad, syncUpdate, h1]
      · simp [syncLoad, syncUpdate, h1, h2, ih]

theorem requestRangeLoop_fst (next : NextServer) (request : NetworkServiceRequest)
    (clientURL : URL) (connId : String) (eps : List (String × NetworkServiceEndpoint)) :
    ∀ ac : List (String × connectionInfo),
      (requestRangeLoop next request clientURL connId eps ac).1 =
        eps.findSome? (fun e => (next e.2.Url request).toOption) := by
  induction eps with
  | nil => intro ac; rfl
  | cons e rest ih =>
    intro ac
    obtain ⟨k, value⟩ := e
    simp only [requestRangeLoop, List.findSome?]
    cases hn : next value.Url request with
    | error msg => simp [hn, Except.toOption, ih]
    | ok c => simp [hn, Except.toOption]

theorem requestRangeLoop_snd_load_preserve (next : NextServer)
    (request : NetworkServiceRequest) (clientURL : URL) (connId : String)
    (eps : List (String × NetworkServiceEndpoint)) :
    ∀ (ac : List (String × connectionInfo)) {id1 : String} {v : connectionInfo},
      syncLoad ac id1 = some v →
      syncLoad (requestRangeLoop next request clientURL connId eps ac).2 id1 = some v := by
  induction eps with
  | nil => intro ac id1 v h; exact h
  | cons e rest ih =>
    intro ac id1 v h
    obtain ⟨k, value⟩ := e
    simp only [requestRangeLoop]
    have h1 := syncLoad_loadOrStore connId
      (⟨clientURL, value.Url, false⟩ : connectionInfo) h
    cases hn : next value.Url request with
    | error msg => exact ih _ h1
    | ok c => exact h1

theorem requestRangeLoop_snd_of_present (next : NextServer)
    (request : NetworkServiceRequest) (clientURL : URL) (connId : String)
    (eps : List (String × NetworkServiceEndpoint)) :
    ∀ (ac : List (String × connectionInfo)) {v : connectionInfo},
      syncLoad ac connId = some v →
      (requestRangeLoop next request clientURL connId eps ac).2 = ac := by
  induction eps with
  | nil => intro ac v _; rfl
  | cons e rest ih =>
    intro ac v h
    obtain ⟨k, value⟩ := e
    simp only [requestRangeLoop]
    rw [syncLoadOrStore_snd_of_some _ h]
    cases hn : next value.Url request with
    | error msg => exact ih _ h
    | ok c => rfl

theorem requestRangeLoop_snd_of_absent (next : NextServer)
    (request : NetworkServiceRequest) (clientURL : URL) (connId : String)
    (eps : List (String × NetworkServiceEndpoint))
    (ac : List (String × connectionInfo)) (h : syncLoad ac connId = none) :
    (requestRangeLoop next request clientURL connId eps ac).2 =
      match eps with
      | [] => ac
      | e :: _ => ac ++ [(connId, ⟨clientURL, e.2.Url, false⟩)] := by
  cases eps with
  | nil => rfl
  | cons e rest =>
    obtain ⟨k, value⟩ := e
    simp only [requestRangeLoop]
    rw [syncLoadOrStore_snd_of_none _ h]
    have hpresent : syncLoad (ac ++ [(connId, (⟨clientURL, value.Url, false⟩ : connectionInfo))]) connId =
        some ⟨clientURL, value.Url, false⟩ := syncLoad_append_self _ h
    cases hn : next value.Url request with
    | error msg => exact requestRangeLoop_snd_of_present next request clientURL connId rest _ hpresent
    | ok c => rfl

theorem getConnIDLoop_oob (name : String) (segs : List PathSegment) (n : Nat) (acc : String)
    (h : segs.length ≤ n + 1) : getConnIDLoop name segs (n + 1) acc = none := by
  simp only [getConnIDLoop]
  rw [List.get?_eq_none.mpr h]

theorem getConnIDLoop_isSome (name : String) (segs : List PathSegment) :
    ∀ (n : Nat) (acc : String), n < segs.length →
      (getConnIDLoop name segs n acc).isSome := by
  intro n
  induction n with
  | zero => intro acc _; rfl
  | succ m ih =>
    intro acc h
    simp only [getConnIDLoop]
    rw [List.get?_eq_get h]
    exact ih _ (Nat.lt_of_succ_lt h)

theorem getConnIDLoop_const (name : String) (segs : List PathSegment) :
    ∀ (m : Nat) (acc : String), m < segs.length →
      (∀ j seg, 1 ≤ j → j ≤ m → segs.get? j = some seg → seg.name ≠ name) →
      getConnIDLoop name segs m acc = some acc := by
  intro m
  induction m with
  | zero => intro acc _ _; rfl
  | succ mm ih =>
    intro acc h hno
    simp only [getConnIDLoop]
    rw [List.get?_eq_get h]
    have hname : (segs.get ⟨mm + 1, h⟩).name ≠ name :=
      hno (mm + 1) _ (Nat.succ_le_succ (Nat.zero_le _)) (le_refl _) (List.get?_eq_get h)
    simp only [if_neg hname]
    exact ih acc (Nat.lt_of_succ_lt h)
      (fun j seg hj1 hj2 hget => hno j seg hj1 (Nat.le_succ_of_le hj2) hget)

theorem getConnIDLoop_lowest (name : String) (segs : List PathSegment)
    (i : Nat) (segi : PathSegment) (h1 : 1 ≤ i)
    (hseg : segs.get? i = some segi) (hmatch : segi.name = name)
    (hlow : ∀ j seg, 1 ≤ j → j < i → segs.get? j = some seg → seg.name ≠ name) :
    ∀ (n : Nat) (acc : String), i ≤ n → n < segs.length →
      getConnIDLoop name segs n acc = some segi.id := by
  intro n
  induction n with
  | zero => intro acc hin _; exact absurd (Nat.le_trans h1 hin) (by omega)
  | succ m ih =>
    intro acc hin hlen
    by_cases hi : i = m + 1
    · subst hi
      simp only [getConnIDLoop]
      rw [hseg]
      simp only [if_pos hmatch]
      exact getConnIDLoop_const name segs m segi.id (Nat.lt_of_succ_lt hlen)
        (fun j seg hj1 hj2 hget => hlow j seg hj1 (Nat.lt_succ_of_le hj2) hget)
    · have him : i ≤ m := by omega
      simp only [getConnIDLoop]
      rw [List.get?_eq_get hlen]
      exact ih _ him (Nat.lt_of_succ_lt hlen)

theorem findSome?_eq_none_of_all {α β : Type} (f : α → Option β) :
    ∀ eps : List α, (∀ e ∈ eps, f e = none) → eps.findSome? f = none := by
  intro eps
  induction eps with
  | nil => intro _; rfl
  | cons e rest ih =>
    intro h
    rw [List.findSome?_cons]
    rw [h e (List.mem_cons_self e rest)]
    exact ih (fun x hx => h x (List.mem_cons_of_mem e hx))

/-- The behaviour of `Request` on the repeat-establish path: the path guard
passes, an active entry exists for the derived id, and the call either
fails the upstream-address check or delegates retargeted at the entry's
recorded `endpointURL`, leaving the state untouched. -/
theorem request_entry_exists_run (l : interposeServer) (next : NextServer)
    (clientURL : URL) (request : NetworkServiceRequest) (cid : String) (info : connectionInfo)
    (hlen : request.connection.path.pathSegments.length ≠ 0)
    (hind : request.connection.path.index ≠ 0)
    (hcid : l.getConnectionID request.connection = some cid)
    (hload : syncLoad l.activeConnection cid = some info) :
    l.Request next clientURL request =
      if clientURL ≠ info.endpointURL then
        some (Except.error Err.endpointURLMismatch, l)
      else
        some (next info.endpointURL request, l) := by
  simp only [interposeServer.Request]
  rw [if_neg (not_or.mpr ⟨hlen, hind⟩)]
  simp only [hcid, hload]

/-- The behaviour of `Request` on the first-establish path: the path guard
passes, no active entry exists for the derived id, and the connection id
equals the derived id. The result is the first successful delegation in
registry-iteration order (the aggregated error when none succeeds), and
the table gains an entry recording the FIRST candidate's URL whenever the
registry is nonempty. -/
theorem request_no_entry_run (l : interposeServer) (next : NextServer)
    (clientURL : URL) (request : NetworkServiceRequest)
    (hlen : request.connection.path.pathSegments.length ≠ 0)
    (hind : request.connection.path.index ≠ 0)
    (hcid : l.getConnectionID request.connection = some request.connection.id)
    (habsent : syncLoad l.activeConnection request.connection.id = none) :
    l.Request next clientURL request =
      some
        ((match l.endpoints.findSome? (fun e => (next e.2.Url request).toOption) with
          | some c => Except.ok c
          | none => Except.error Err.allCrossNSEFailed),
         { l with activeConnection :=
            match l.endpoints with
            | [] => l.activeConnection
            | e :: _ =>
              l.activeConnection ++ [(request.connection.id, ⟨clientURL, e.2.Url, false⟩)] }) := by
  have hfst := requestRangeLoop_fst next request clientURL request.connection.id
    l.endpoints l.activeConnection
  have hsnd := requestRangeLoop_snd_of_absent next request clientURL request.connection.id
    l.endpoints l.activeConnection habsent
  have hpair : requestRangeLoop next request clientURL request.connection.id
      l.endpoints l.activeConnection =
      (l.endpoints.findSome? (fun e => (next e.2.Url request).toOption),
        match l.endpoints with
        | [] => l.activeConnection
        | e :: _ =>
          l.activeConnection ++ [(request.connection.id, ⟨clientURL, e.2.Url, false⟩)]) := by
    rw [← hfst, ← hsnd]
  simp only [interposeServer.Request]
  rw [if_neg (not_or.mpr ⟨hlen, hind⟩)]
  simp only [hcid, habsent]
  rw [if_neg (not_not_intro rfl)]
  rw [hpair]
  cases hfind : l.endpoints.findSome? (fun e => (next e.2.Url request).toOption) with
  | some c => simp
  | none => simp

/-- C7: an establish whose connection path has zero segments or current
index 0 (the only value of the unsigned index that is ≤ 0) is rejected
with the malformed-path error immediately: the server state is returned
unchanged — so neither the cross-connect registry nor the active-route
table is mutated — and the result does not depend on the delegate, so the
rest of the chain is never consulted. -/
theorem request_rejects_malformed_path (l : interposeServer) (next : NextServer)
    (clientURL : URL) (request : NetworkServiceRequest)
    (h : request.connection.path.pathSegments.length = 0 ∨ request.connection.path.index = 0) :
    l.Request next clientURL request = some (Except.error Err.malformedPath, l) := by
  simp only [interposeServer.Request]
  rw [if_pos h]

/-- Witness for C7 at a request with an empty path. -/
theorem request_rejects_malformed_path_witness :
    interposeServer.Request c7server c7next "U" ⟨c7conn⟩ =
      some (Except.error Err.malformedPath, c7server) :=
  request_rejects_malformed_path c7server c7next "U" ⟨c7conn⟩ (Or.inl rfl)

/-- Every chain of pass-through elements is traversed in list order and
ends at the terminal element. -/
theorem chainNewNetworkServiceServer_visiting (tags : List ElementTag) :
    ∀ (trace : List ElementTag) (request : NetworkServiceRequest),
      chainNewNetworkServiceServer (tags.map visitingElement) trace request =
        (trace ++ tags, Except.ok request.connection) := by
  induction tags with
  | nil => intro trace request; simp [chainNewNetworkServiceServer, terminalServer]
  | cons t rest ih =>
    intro trace request
    simp only [List.map_cons, chainNewNetworkServiceServer, visitingElement]
    rw [ih]
    simp

/-- C8: the pipeline `endpoint.NewServer` assembles is exactly
authorization, identity stamping, monitoring, timeout supervision,
path stamping, then the caller-supplied elements in order, and an
establish call traverses that construction order. -/
theorem endpointNewServer_traversal_order (additionalFunctionality : List ElementTag)
    (request : NetworkServiceRequest) :
    endpointNewServer visitingElement additionalFunctionality [] request =
      ([ElementTag.authorize, ElementTag.setid, ElementTag.monitor, ElementTag.timeout,
        ElementTag.updatepath] ++ additionalFunctionality, Except.ok request.connection) := by
  rw [endpointNewServer, chainNewNetworkServiceServer_visiting]
  rfl

/-- C4: when every path position from 1 to the current index is defined,
the derived connection id is the id of the lowest-indexed segment, among
positions from the current index down to 1, whose name equals the
element's identity name. -/
theorem getConnectionID_lowest_match (l : interposeServer) (conn : Connection)
    (i : Nat) (segi : PathSegment)
    (hind : conn.path.index < conn.path.pathSegments.length)
    (h1 : 1 ≤ i) (h2 : i ≤ conn.path.index)
    (hseg : conn.path.pathSegments.get? i = some segi)
    (hname : segi.name = l.name)
    (hlow : ∀ j seg, 1 ≤ j → j < i → conn.path.pathSegments.get? j = some seg →
      seg.name ≠ l.name) :
    l.getConnectionID conn = some segi.id :=
  getConnIDLoop_lowest l.name conn.path.pathSegments i segi h1 hseg hname hlow
    conn.path.index "" h2 hind

/-- Witness for C4: identity "me" at indices 2 and 4 with current index 5
derives the id at index 2. -/
theorem getConnectionID_lowest_match_witness :
    interposeServer.getConnectionID c4server c4conn = some "i2" := by
  have h := getConnectionID_lowest_match c4server c4conn 2 ⟨"me", "i2"⟩
    (by decide) (by decide) (by decide) (by decide) (by decide)
    (by
      intro j seg hj1 hj2 hget
      have hj : j = 1 := by omega
      subst hj
      have hev : c4conn.path.pathSegments.get? 1 = some (⟨"a", "i1"⟩ : PathSegment) := by
        decide
      rw [hev] at hget
      injection hget with h3
      rw [← h3]
      decide)
  exact h

/-- C9 counterexample: a connection with current index 0 and an empty
segment list has index ≥ segment count, yet the derivation loop performs
no access at all — `getConnectionID` returns an id — and `Close` runs to
its missing-state error instead of reading out of range. -/
theorem close_oob_claim_counterexample :
    c9connA.path.pathSegments.length ≤ c9connA.path.index ∧
    interposeServer.getConnectionID c9server c9connA ≠ none ∧
    interposeServer.Close c9server c9next c9connA =
      some (Except.error Err.noActiveConnection, c9server) := by
  decide

/-- C9 (amended): Close validates nothing about the path shape; the
id-derivation loop reads the segment list out of range exactly when the
current index is at least 1 and at least the segment count — in which
case Close panics — and the accesses are in range whenever the index is
below the segment count or zero. -/
theorem close_index_out_of_range (l : interposeServer) (next : NextCloser) (conn : Connection) :
    (l.getConnectionID conn = none ↔
      1 ≤ conn.path.index ∧ conn.path.pathSegments.length ≤ conn.path.index) ∧
    (1 ≤ conn.path.index → conn.path.pathSegments.length ≤ conn.path.index →
      l.Close next conn = none) := by
  have hiff : l.getConnectionID conn = none ↔
      1 ≤ conn.path.index ∧ conn.path.pathSegments.length ≤ conn.path.index := by
    constructor
    · intro h
      cases hn : conn.path.index with
      | zero =>
        simp only [interposeServer.getConnectionID, hn] at h
        simp [getConnIDLoop] at h
      | succ m =>
        refine ⟨by omega, ?_⟩
        by_contra hc
        push_neg at hc
        have hs := getConnIDLoop_isSome l.name conn.path.pathSegments conn.path.index ""
          (by omega)
        rw [interposeServer.getConnectionID] at h
        rw [h] at hs
        simp at hs
    · rintro ⟨h1, h2⟩
      cases hn : conn.path.index with
      | zero => omega
      | succ m =>
        rw [interposeServer.getConnectionID, hn]
        exact getConnIDLoop_oob l.name conn.path.pathSegments m "" (by omega)
  refine ⟨hiff, fun h1 h2 => ?_⟩
  have hnone := hiff.mpr ⟨h1, h2⟩
  simp only [interposeServer.Close, hnone]

/-- Witness for C9 at index 1 over an empty segment list. -/
theorem close_index_out_of_range_witness :
    interposeServer.getConnectionID c9server c9connB = none ∧
    interposeServer.Close c9server c9next c9connB = none :=
  ⟨(close_index_out_of_range c9server c9next c9connB).1.mpr ⟨by decide, by decide⟩,
   (close_index_out_of_range c9server c9next c9connB).2 (by decide) (by decide)⟩

/-- C1 counterexample: with an Active Route Entry recording upstream "U"
and cross-connect "X", a repeat establish presenting "U" does not delegate
with the context retargeted at the recorded cross-connect address "X". -/
theorem request_repeat_cross_target_counterexample :
    syncLoad c1server.activeConnection "c" = some ⟨"U", "X", false⟩ ∧
    interposeServer.getConnectionID c1server connC = some "c" ∧
    ¬ (interposeServer.Request c1server c1next "U" reqC =
        some (c1next "X" reqC, c1server)) := by
  decide

/-- C1 (amended): a repeat establish whose upstream address equals the
recorded one delegates with the per-call context retargeted at the
entry's recorded upstream endpoint address (`endpointURL`, not the
cross-connect address), returns the delegate's result verbatim, leaves
the state unchanged, and does so for every content of the cross-connect
registry — the registry is not re-iterated. -/
theorem request_repeat_targets_recorded_endpoint (l : interposeServer) (next : NextServer)
    (clientURL : URL) (request : NetworkServiceRequest) (cid : String) (info : connectionInfo)
    (hlen : request.connection.path.pathSegments.length ≠ 0)
    (hind : request.connection.path.index ≠ 0)
    (hcid : l.getConnectionID request.connection = some cid)
    (hload : syncLoad l.activeConnection cid = some info)
    (hurl : clientURL = info.endpointURL) :
    ∀ eps : List (String × NetworkServiceEndpoint),
      interposeServer.Request { l with endpoints := eps } next clientURL request =
        some (next info.endpointURL request, { l with endpoints := eps }) := by
  intro eps
  have h := request_entry_exists_run { l with endpoints := eps } next clientURL request
    cid info hlen hind hcid hload
  rw [h, if_neg (not_not_intro hurl)]

/-- Witness for C1 (amended). -/
theorem request_repeat_targets_recorded_endpoint_witness :
    interposeServer.Request c1server c1next "U" reqC = some (c1next "U" reqC, c1server) := by
  have h := request_repeat_targets_recorded_endpoint c1base c1next "U" reqC "c"
    ⟨"U", "X", false⟩ (by decide) (by decide) (by decide) (by decide) rfl
    [("e1", ⟨"X"⟩)]
  exact h

/-- C6: on a repeat establish (entry present for the derived id, guards
passing, delegate never returning the mismatch error itself), the call
fails with the consistency-violation error exactly when the presented
upstream address differs from the recorded one, and with the recorded
address it proceeds to delegation, returning the delegate's result. -/
theorem request_repeat_sticky_upstream (l : interposeServer) (next : NextServer)
    (clientURL : URL) (request : NetworkServiceRequest) (cid : String) (info : connectionInfo)
    (hlen : request.connection.path.pathSegments.length ≠ 0)
    (hind : request.connection.path.index ≠ 0)
    (hcid : l.getConnectionID request.connection = some cid)
    (hload : syncLoad l.activeConnection cid = some info)
    (hnext : ∀ u r, next u r ≠ Except.error Err.endpointURLMismatch) :
    (l.Request next clientURL request = some (Except.error Err.endpointURLMismatch, l) ↔
      clientURL ≠ info.endpointURL) ∧
    (clientURL = info.endpointURL →
      l.Request next clientURL request = some (next info.endpointURL request, l)) := by
  have h := request_entry_exists_run l next clientURL request cid info hlen hind hcid hload
  by_cases hurl : clientURL = info.endpointURL
  · rw [h, if_neg (not_not_intro hurl)]
    refine ⟨⟨fun heq => ?_, fun hne => absurd hurl hne⟩, fun _ => rfl⟩
    simp only [Option.some.injEq, Prod.mk.injEq] at heq
    exact absurd heq.1 (hnext _ _)
  · rw [h, if_pos hurl]
    exact ⟨⟨fun _ => hurl, fun _ => rfl⟩, fun heq => absurd heq hurl⟩

/-- Witness for C6: address "V" differing from recorded "U" fails with the
mismatch error; presenting "U" again delegates. -/
theorem request_repeat_sticky_upstream_witness :
    interposeServer.Request c6server c6next "V" reqC =
      some (Except.error Err.endpointURLMismatch, c6server) ∧
    interposeServer.Request c6server c6next "U" reqC =
      some (c6next "U" reqC, c6server) := by
  have h1 := request_repeat_sticky_upstream c6server c6next "V" reqC "c" ⟨"U", "X", false⟩
    (by decide) (by decide) (by decide) (by decide)
    (fun u r h => Except.noConfusion h)
  have h2 := request_repeat_sticky_upstream c6server c6next "U" reqC "c" ⟨"U", "X", false⟩
    (by decide) (by decide) (by decide) (by decide)
    (fun u r h => Except.noConfusion h)
  exact ⟨h1.1.mpr (by decide), h2.2 rfl⟩

/-- C2 counterexample: two registered candidates; the delegate rejects the
first ("u1") and accepts the second ("u2"); establish succeeds, but the
Active Route Entry records the first candidate's address "u1", not the
address of the candidate that succeeded. -/
theorem request_first_candidate_recorded_counterexample :
    interposeServer.Request c2server c2next "U" reqC =
      some (Except.ok connC,
        ⟨[("e1", ⟨"u1"⟩), ("e2", ⟨"u2"⟩)], [("c", ⟨"U", "u1", false⟩)], "me"⟩) ∧
    c2next "u1" reqC = Except.error (Err.nextErr "refused") ∧
    c2next "u2" reqC = Except.ok connC := by
  decide

/-- C2 (amended): on a first establish the registry is iterated
sequentially; the result is the first delegation that succeeds, in
iteration order (failing candidates' errors are swallowed and iteration
continues), and the aggregated error results when none succeeds; the
Active Route Entry left for the connection id records the FIRST iterated
candidate's address — the insert-if-absent store keeps the first
candidate's record even when a later candidate is the one that
succeeds. -/
theorem request_first_establish_first_success (l : interposeServer) (next : NextServer)
    (clientURL : URL) (request : NetworkServiceRequest)
    (hlen : request.connection.path.pathSegments.length ≠ 0)
    (hind : request.connection.path.index ≠ 0)
    (hcid : l.getConnectionID request.connection = some request.connection.id)
    (habsent : syncLoad l.activeConnection request.connection.id = none) :
    l.Request next clientURL request =
      some
        ((match l.endpoints.findSome? (fun e => (next e.2.Url request).toOption) with
          | some c => Except.ok c
          | none => Except.error Err.allCrossNSEFailed),
         { l with activeConnection :=
            match l.endpoints with
            | [] => l.activeConnection
            | e :: _ =>
              l.activeConnection ++ [(request.connection.id, ⟨clientURL, e.2.Url, false⟩)] }) :=
  request_no_entry_run l next clientURL request hlen hind hcid habsent

/-- Witness for C2 (amended) at the two-candidate input. -/
theorem request_first_establish_first_success_witness :
    interposeServer.Request c2server c2next "U" reqC =
      some (Except.ok connC,
        ⟨[("e1", ⟨"u1"⟩), ("e2", ⟨"u2"⟩)], [("c", ⟨"U", "u1", false⟩)], "me"⟩) := by
  have h := request_first_establish_first_success c2server c2next "U" reqC
    (by decide) (by decide) (by decide) (by decide)
  exact h.trans (by decide)

/-- C3 counterexample: one registered candidate which rejects; establish
returns the aggregated error, but an Active Route Entry recording the
candidate is retained and is usable — a second establish for the same id
takes the repeat path and delegates at the recorded upstream address
instead of behaving as a first establish (which would iterate the
registry and fail again). -/
theorem request_exhaustion_counterexample :
    interposeServer.Request c3server c3next "U" reqC =
      some (Except.error Err.allCrossNSEFailed, c3server2) ∧
    syncLoad c3server2.activeConnection "c" = some ⟨"U", "u1", false⟩ ∧
    interposeServer.Request c3server2 c3next2 "U" reqC = some (Except.ok connC, c3server2) ∧
    ¬ (interposeServer.Request c3server2 c3next2 "U" reqC =
        some (Except.error Err.allCrossNSEFailed, c3server2)) := by
  decide

/-- C3 (amended): when every registered candidate's delegated call fails,
or the registry is empty, Request returns the aggregated
no-route-available error; with an empty registry no Active Route Entry is
created, but with at least one (all-failing) candidate a stale entry
recording the first candidate is retained, so a later establish for the
same id is treated as a repeat establish rather than a first one. -/
theorem request_exhaustion_keeps_stale_entry (l : interposeServer) (next : NextServer)
    (clientURL : URL) (request : NetworkServiceRequest)
    (hlen : request.connection.path.pathSegments.length ≠ 0)
    (hind : request.connection.path.index ≠ 0)
    (hcid : l.getConnectionID request.connection = some request.connection.id)
    (habsent : syncLoad l.activeConnection request.connection.id = none)
    (hfail : ∀ e ∈ l.endpoints, (next e.2.Url request).toOption = none) :
    l.Request next clientURL request =
      some (Except.error Err.allCrossNSEFailed,
        { l with activeConnection :=
            match l.endpoints with
            | [] => l.activeConnection
            | e :: _ =>
              l.activeConnection ++ [(request.connection.id, ⟨clientURL, e.2.Url, false⟩)] }) := by
  have h := request_no_entry_run l next clientURL request hlen hind hcid habsent
  rw [h, findSome?_eq_none_of_all _ _ hfail]

/-- Witness for C3 (amended) at the one-rejecting-candidate input. -/
theorem request_exhaustion_keeps_stale_entry_witness :
    interposeServer.Request c3server c3next "U" reqC =
      some (Except.error Err.allCrossNSEFailed, c3server2) := by
  have h := request_exhaustion_keeps_stale_entry c3server c3next "U" reqC
    (by decide) (by decide) (by decide) (by decide) (fun e _ => rfl)
  exact h.trans (by decide)

/-- C5: for a connection id with an Active Route Entry whose closing-phase
flag is unset, the first Close sets the flag and delegates the close
retargeted at the entry's recorded cross-connect address, and the second
Close for the same id then delegates retargeted at the recorded
upstream/endpoint address, both returning the delegate's result. -/
theorem close_two_phase (l : interposeServer) (next1 next2 : NextCloser) (conn : Connection)
    (cid : String) (info : connectionInfo)
    (hcid : l.getConnectionID conn = some cid)
    (hload : syncLoad l.activeConnection cid = some info)
    (hflag : info.closingNSE = false) :
    l.Close next1 conn =
      some (next1 info.interposeNSEURL conn,
        { l with activeConnection :=
            syncUpdate l.activeConnection cid (fun ci => { ci with closingNSE := true }) }) ∧
    interposeServer.Close
        { l with activeConnection :=
            syncUpdate l.activeConnection cid (fun ci => { ci with closingNSE := true }) }
        next2 conn =
      some (next2 info.endpointURL conn,
        { l with activeConnection :=
            syncUpdate l.activeConnection cid (fun ci => { ci with closingNSE := true }) }) := by
  constructor
  · simp only [interposeServer.Close, hcid, hload]
    rw [if_pos hflag]
  · have hcid2 : interposeServer.getConnectionID
        { l with activeConnection :=
            syncUpdate l.activeConnection cid (fun ci => { ci with closingNSE := true }) }
        conn = some cid := hcid
    have hload2 : syncLoad
        (syncUpdate l.activeConnection cid (fun ci => { ci with closingNSE := true })) cid =
        some { info with closingNSE := true } := by
      rw [syncLoad_syncUpdate, if_pos rfl, hload]
      rfl
    simp only [interposeServer.Close, hcid2, hload2]
    rw [if_neg (by simp)]

/-- Witness for C5: first close goes to the cross-connect URL "X" and sets
the flag, second close goes to the upstream URL "U". -/
theorem close_two_phase_witness :
    interposeServer.Close c5server c5next1 connC = some (c5next1 "X" connC, c5serverClosed) ∧
    interposeServer.Close c5serverClosed c5next2 connC =
      some (c5next2 "U" connC, c5serverClosed) := by
  have h := close_two_phase c5server c5next1 c5next2 connC "c" ⟨"U", "X", false⟩
    (by decide) (by decide) rfl
  exact ⟨h.1.trans (by decide), h.2.trans (by decide)⟩

/-- Any completed Request leaves the state unchanged or replaces the
active-connection table by the one produced by the registry-iteration
loop. -/
theorem request_result_state (l : interposeServer) (next : NextServer) (clientURL : URL)
    (request : NetworkServiceRequest) {r : Except Err Connection} {l1 : interposeServer}
    (hreq : l.Request next clientURL request = some (r, l1)) :
    l1 = l ∨
    l1 = { l with activeConnection :=
      (requestRangeLoop next request clientURL request.connection.id
        l.endpoints l.activeConnection).2 } := by
  simp only [interposeServer.Request] at hreq
  by_cases hgate : request.connection.path.pathSegments.length = 0 ∨
      request.connection.path.index = 0
  · rw [if_pos hgate] at hreq
    simp only [Option.some.injEq, Prod.mk.injEq] at hreq
    exact Or.inl hreq.2.symm
  · rw [if_neg hgate] at hreq
    cases hc : l.getConnectionID request.connection with
    | none => simp only [hc] at hreq; exact Option.noConfusion hreq
    | some cid =>
      simp only [hc] at hreq
      cases hl : syncLoad l.activeConnection cid with
      | some info =>
        simp only [hl] at hreq
        by_cases hu : clientURL ≠ info.endpointURL
        · rw [if_pos hu] at hreq
          simp only [Option.some.injEq, Prod.mk.injEq] at hreq
          exact Or.inl hreq.2.symm
        · rw [if_neg hu] at hreq
          simp only [Option.some.injEq, Prod.mk.injEq] at hreq
          exact Or.inl hreq.2.symm
      | none =>
        simp only [hl] at hreq
        by_cases hid : request.connection.id ≠ cid
        · rw [if_pos hid] at hreq
          simp only [Option.some.injEq, Prod.mk.injEq] at hreq
          exact Or.inl hreq.2.symm
        · rw [if_neg hid] at hreq
          right
          cases hloop : requestRangeLoop next request clientURL request.connection.id
              l.endpoints l.activeConnection with
          | mk fst snd =>
            simp only [hloop] at hreq
            cases fst with
            | some result =>
              simp only [Option.some.injEq, Prod.mk.injEq] at hreq
              exact hreq.2.symm
            | none =>
              simp only [Option.some.injEq, Prod.mk.injEq] at hreq
              exact hreq.2.symm

/-- A Request operation never disturbs an existing active-connection
entry. -/
theorem request_preserves_entry (l : interposeServer) (next : NextServer) (clientURL : URL)
    (request : NetworkServiceRequest) {id1 : String} {v : connectionInfo}
    (h : syncLoad l.activeConnection id1 = some v) :
    syncLoad (applyOperation (Operation.request next clientURL request) l).activeConnection
      id1 = some v := by
  simp only [applyOperation]
  cases hreq : l.Request next clientURL request with
  | none => exact h
  | some p =>
    obtain ⟨r, l1⟩ := p
    rcases request_result_state l next clientURL request hreq with h1 | h1
    · rw [h1]; exact h
    · rw [h1]
      exact requestRangeLoop_snd_load_preserve next request clientURL
        request.connection.id l.endpoints l.activeConnection h

/-- A Close operation never disturbs an active-connection entry whose
closing flag is already set. -/
theorem close_preserves_entry (l : interposeServer) (next : NextCloser) (conn : Connection)
    {id1 : String} {v : connectionInfo}
    (h : syncLoad l.activeConnection id1 = some v) (hflag : v.closingNSE = true) :
    syncLoad (applyOperation (Operation.close next conn) l).activeConnection id1 = some v := by
  simp only [applyOperation]
  cases hcl : l.Close next conn with
  | none => exact h
  | some p =>
    obtain ⟨r, l1⟩ := p
    simp only [interposeServer.Close] at hcl
    cases hc : l.getConnectionID conn with
    | none => simp only [hc] at hcl; exact Option.noConfusion hcl
    | some cid =>
      simp only [hc] at hcl
      cases hl : syncLoad l.activeConnection cid with
      | none =>
        simp only [hl] at hcl
        simp only [Option.some.injEq, Prod.mk.injEq] at hcl
        rw [← hcl.2]; exact h
      | some info =>
        simp only [hl] at hcl
        by_cases hf : info.closingNSE = false
        · rw [if_pos hf] at hcl
          simp only [Option.some.injEq, Prod.mk.injEq] at hcl
          rw [← hcl.2]
          show syncLoad
              (syncUpdate l.activeConnection cid (fun ci => { ci with closingNSE := true }))
              id1 = some v
          rw [syncLoad_syncUpdate]
          by_cases hid : id1 = cid
          · subst hid
            rw [h] at hl
            injection hl with hiv
            rw [← hiv] at hf
            rw [hflag] at hf
            exact Bool.noConfusion hf
          · rw [if_neg hid]; exact h
        · rw [if_neg hf] at hcl
          simp only [Option.some.injEq, Prod.mk.injEq] at hcl
          rw [← hcl.2]; exact h

/-- The registration surface touches only the endpoint registry. -/
theorem loadOrStore_preserves_active (l : interposeServer) (name : String)
    (endpoint : NetworkServiceEndpoint) :
    (applyOperation (Operation.loadOrStore name endpoint) l).activeConnection =
      l.activeConnection := by
  simp only [applyOperation, interposeServer.LoadOrStore]
  split <;> rfl

/-- No operation disturbs an active-connection entry whose closing flag is
set. -/
theorem applyOperation_preserves_closed_entry (op : Operation) (l : interposeServer)
    {id1 : String} {v : connectionInfo}
    (h : syncLoad l.activeConnection id1 = some v) (hflag : v.closingNSE = true) :
    syncLoad (applyOperation op l).activeConnection id1 = some v := by
  cases op with
  | request next clientURL req => exact request_preserves_entry l next clientURL req h
  | close next conn => exact close_preserves_entry l next conn h hflag
  | loadOrStore name endpoint => rw [loadOrStore_preserves_active]; exact h
  | delete name => exact h

theorem foldl_preserves_closed_entry (ops : List Operation) :
    ∀ (l : interposeServer) {cid : String} {info : connectionInfo},
      syncLoad l.activeConnection cid = some info → info.closingNSE = true →
      syncLoad (ops.foldl (fun s op => applyOperation op s) l).activeConnection cid =
        some info := by
  induction ops with
  | nil => intro l cid info h _; exact h
  | cons op rest ih =>
    intro l cid info h hflag
    exact ih _ (applyOperation_preserves_closed_entry op l h hflag) hflag

/-- C10: once an entry's closing-phase flag is set, no sequence of
operations (Request, Close, registry store, registry delete) ever clears
the flag or removes the entry — the entry survives unchanged — and every
further Close for that connection id reaches delegation retargeted at the
recorded upstream endpoint address, leaving the state unchanged,
identically to the second Close. -/
theorem closing_flag_persists (l : interposeServer) (cid : String) (info : connectionInfo)
    (hload : syncLoad l.activeConnection cid = some info)
    (hflag : info.closingNSE = true) :
    (∀ ops : List Operation,
      syncLoad (ops.foldl (fun s op => applyOperation op s) l).activeConnection cid =
        some info) ∧
    (∀ (next : NextCloser) (conn : Connection),
      l.getConnectionID conn = some cid →
      l.Close next conn = some (next info.endpointURL conn, l)) := by
  constructor
  · intro ops
    exact foldl_preserves_closed_entry ops l hload hflag
  · intro next conn hcid
    simp only [interposeServer.Close, hcid, hload]
    rw [if_neg (by rw [hflag]; exact fun hh => Bool.noConfusion hh)]

/-- Witness for C10: after a repeat Request, a third Close and a registry
removal, the flagged entry is intact, and Close still delegates at the
upstream URL "U". -/
theorem closing_flag_persists_witness :
    syncLoad
        (([Operation.request c10nextS "U" reqC, Operation.close c10next connC,
            Operation.delete "e1"].foldl (fun s op => applyOperation op s))
          c10server).activeConnection "c" = some ⟨"U", "X", true⟩ ∧
    interposeServer.Close c10server c10next connC = some (c10next "U" connC, c10server) := by
  have h := closing_flag_persists c10server "c" ⟨"U", "X", true⟩ (by decide) rfl
  exact ⟨h.1 _, (h.2 c10next connC (by decide)).trans (by decide)⟩

end NSM
